import Mathlib

/-!
# Verification of the tree-sitter grammar testing harness (`evaluator.py`)

A shallow embedding of the corpus-based conformance harness: the Corpus
Scanner (`find_files`), the Oracle Invoker (`test_file`), the Batch
Runner / Aggregator (`process_directory`), the statistics printer
(`print_stats`) and the Report Writer (`save_results`), together with
theorems settling the frozen claims about them.

Modelling decisions (all from the source, `src/evaluator.py`):
* The filesystem seen by `os.walk` is passed as a value: an
  `Option DirWalk`, where `none` models a directory for which
  `os.path.exists` is false, and a `DirWalk` is the sequence of
  `(root, filenames)` entries that `os.walk` yields (the `dirs`
  component is unused by the source).
* The external oracle (`subprocess.run(["tree-sitter", "parse", path])`)
  is a value `Oracle : String → OracleOutcome`: either the process runs
  and exits with an integer status (negative for death by signal, as in
  Python's `returncode`), or spawning fails, which in Python raises
  `FileNotFoundError`/`PermissionError`; fallible paths are `Except`.
* `process_directory` returns `([], {})` when no files are found: the
  empty Python dict `{}` is modelled as `none : Option SetStats`
  (a dict holding none of the stats keys), and a populated stats dict as
  `some s`; any key lookup on the empty dict raises `KeyError`, which the
  `Except String` results of `print_stats`/`save_results` model.
* The worker pool's `imap_unordered` yields results in a run-dependent
  order; the embedding evaluates tasks in submission order (one valid
  schedule) and order-(in)dependence of aggregation is settled separately
  over arbitrary result lists. An exception raised inside a worker is
  re-raised in the parent when its result is consumed, aborting the
  batch, which `Except` propagation through the fold models.
* Console output relevant to the claims is returned as data:
  `print_stats` returns the three percentage rates it prints (as exact
  rationals; the claims do not depend on float rounding), and
  `save_results` returns a `SaveOutput` recording the file written, the
  returned report name and the two capped mismatch previews.
-/

namespace Evaluator

/-- The result dict produced by `test_file` for one task
(`file_path`, `expected_success`, `actual_success`, `success`). -/
structure TaskResult where
  file_path : String
  expected_success : Bool
  actual_success : Bool
  success : Bool
deriving DecidableEq, Repr

/-- The per-directory stats dict built by `process_directory`
(`total`, `passed`, `failed`, `failed_files`). -/
structure SetStats where
  total : Nat
  passed : Nat
  failed : Nat
  failed_files : List String
deriving DecidableEq, Repr

/-- Outcome of one invocation of the external parsing oracle:
the process ran and exited with `code` (negative when killed by a
signal, following Python's `returncode`), or spawning the process
failed (oracle missing / permission denied), which raises in Python. -/
inductive OracleOutcome where
  | exited (code : Int)
  | spawnFailure
deriving DecidableEq, Repr

/-- The external parsing oracle as a value: behaviour per file path. -/
abbrev Oracle := String → OracleOutcome

/-- The `(root, filenames)` entries `os.walk` yields for a directory tree. -/
abbrev DirWalk := List (String × List String)

/-- Models `os.path.join(root, filename)` for a separator-free basename,
the only shape `os.walk` produces for `filename`. -/
def pathJoin (root fn : String) : String := root ++ "/" ++ fn

/-- Python's `str.endswith(suffix)`: the suffix test on the character
sequences (spelled out structurally so that concrete instances
evaluate). -/
def endswith (s suffix : String) : Bool := suffix.data.isSuffixOf s.data

/-- The default extension list of `find_files` (and of the CLI flag). -/
def defaultExtensions : List String := [".js", ".ts", ".tsx", ".jsx"]

/-- `find_files(directory, extensions)`: `[]` when the directory does not
exist (after printing an error), otherwise the loop over `os.walk`
appending `os.path.join(root, filename)` for every filename ending in one
of the extensions (defaulted when `None`). -/
def find_files (fs : Option DirWalk) (extensions : Option (List String)) : List String :=
  match fs with
  | none => []
  | some w =>
    let exts := extensions.getD defaultExtensions
    w.foldl (fun files rf =>
      rf.2.foldl (fun files filename =>
        if exts.any (fun ext => endswith filename ext) then
          files ++ [pathJoin rf.1 filename]
        else files) files) []

/-- A walk as `os.walk` actually produces it for a real directory tree:
each directory (root) is visited once, a directory's filename listing has
no duplicates, and filenames are basenames, free of the separator. -/
def WalkWellFormed (w : DirWalk) : Prop :=
  (w.map Prod.fst).Nodup ∧ ∀ rf ∈ w, rf.2.Nodup ∧ ∀ fn ∈ rf.2, '/' ∉ fn.data

instance (w : DirWalk) : Decidable (WalkWellFormed w) :=
  inferInstanceAs (Decidable
    ((w.map Prod.fst).Nodup ∧ ∀ rf ∈ w, rf.2.Nodup ∧ ∀ fn ∈ rf.2, '/' ∉ fn.data))

/-- `test_file(args)`: runs the oracle on the file; when the process
spawns and exits it returns the result dict with
`actual_success = (returncode == 0)` and
`success = (expected_success == actual_success)`; when spawning fails,
`subprocess.run` raises, modelled by `Except.error`. -/
def test_file (oracle : Oracle) (args : String × Bool) : Except Unit TaskResult :=
  match oracle args.1 with
  | .spawnFailure => .error ()
  | .exited code =>
    .ok { file_path := args.1
          expected_success := args.2
          actual_success := code == 0
          success := args.2 == (code == 0) }

/-- One step of the stats accumulation in `process_directory`'s result
loop: bump `passed`, or bump `failed` and append the file path. -/
def foldStats (s : SetStats) (r : TaskResult) : SetStats :=
  if r.success then { s with passed := s.passed + 1 }
  else { s with failed := s.failed + 1, failed_files := s.failed_files ++ [r.file_path] }

/-- The Aggregator: folds a `TaskResult` collection into a `SetStats`,
starting (as `process_directory` does) from `total` = number of tasks
(= number of results, one per file) and zeroed counters. -/
def aggregate (results : List TaskResult) : SetStats :=
  results.foldl foldStats { total := results.length, passed := 0, failed := 0, failed_files := [] }

/-- One iteration of `process_directory`'s result loop: apply the worker
(`test_file`) to the task, append its result and fold the statistics;
a worker exception propagates. -/
def processStep (oracle : Oracle) (acc : List TaskResult × SetStats) (t : String × Bool) :
    Except Unit (List TaskResult × SetStats) := do
  let r ← test_file oracle t
  return (acc.1 ++ [r], foldStats acc.2 r)

/-- `process_directory(directory, expected_success, extensions)`: finds
the files, returns `([], {})` when there are none (the empty dict is
`none`), otherwise runs every `(file, expected)` task through
`test_file`, collecting results and statistics; a worker exception
propagates and aborts the batch. -/
def process_directory (oracle : Oracle) (fs : Option DirWalk) (expected_success : Bool)
    (extensions : Option (List String)) :
    Except Unit (List TaskResult × Option SetStats) := do
  let files := find_files fs extensions
  if files.isEmpty then
    return ([], none)
  let tasks := files.map (fun fp => (fp, expected_success))
  let out ← tasks.foldlM (processStep oracle)
    (([] : List TaskResult),
     ({ total := files.length, passed := 0, failed := 0, failed_files := [] } : SetStats))
  return (out.1, some out.2)

/-- A lookup `stats[key]` on a stats dict: the empty dict `{}` holds no
keys, so every lookup raises `KeyError`. -/
def statGet (stats : Option SetStats) (key : SetStats → Nat) : Except String Nat :=
  match stats with
  | none => .error "KeyError"
  | some s => .ok (key s)

/-- `print_stats(stats_should_pass, stats_should_fail)`: computes the
should-parse rate, the should-fail rate and the overall rate, each
guarded to `0` when the corresponding total is `0`; returns the three
printed percentages. Key lookups on an empty stats dict raise. -/
def print_stats (ssp ssf : Option SetStats) : Except String (Rat × Rat × Rat) := do
  let spTotal ← statGet ssp (·.total)
  let spPassed ← statGet ssp (·.passed)
  let pass_rate : Rat := if spTotal > 0 then ((spPassed : Rat) / (spTotal : Rat)) * 100 else 0
  let sfTotal ← statGet ssf (·.total)
  let sfPassed ← statGet ssf (·.passed)
  let fail_rate : Rat := if sfTotal > 0 then ((sfPassed : Rat) / (sfTotal : Rat)) * 100 else 0
  let total_tests := spTotal + sfTotal
  let total_passed := spPassed + sfPassed
  let total_rate : Rat :=
    if total_tests > 0 then ((total_passed : Rat) / (total_tests : Rat)) * 100 else 0
  return (pass_rate, fail_rate, total_rate)

/-- One entry of the report's `failed_tests` list. -/
structure FailedTestRecord where
  file : String
  expected : String
  actual : String
deriving DecidableEq, Repr

/-- The per-set summary embedded in the report's `stats` object. -/
structure StatsSummary where
  total : Nat
  passed : Nat
  failed : Nat
deriving DecidableEq, Repr

/-- The JSON report `save_results` writes when mismatches exist. -/
structure Report where
  timestamp : String
  should_pass : StatsSummary
  should_fail : StatsSummary
  failed_tests : List FailedTestRecord
deriving DecidableEq, Repr

/-- The observable behaviour of one `save_results` call: the report file
written (none = no file I/O), the returned report name (none = Python
`None`), and for each mismatch category the file paths printed in its
preview and the count printed by its "... and N more" line (none = line
not printed). -/
structure SaveOutput where
  report_written : Option (String × Report)
  ret : Option String
  preview_pass : List String
  preview_pass_more : Option Nat
  preview_fail : List String
  preview_fail_more : Option Nat
deriving DecidableEq, Repr

/-- The loop `for result in results: if not result["success"]:
failed_tests.append({file, expected, actual})` of `save_results`. -/
def collectFailed (results : List TaskResult) (expected actual : String)
    (acc : List FailedTestRecord) : List FailedTestRecord :=
  results.foldl (fun acc r =>
    if !r.success then acc ++ [{ file := r.file_path, expected := expected, actual := actual }]
    else acc) acc

/-- `save_results(results_should_pass, results_should_fail,
stats_should_pass, stats_should_fail)`: collects the mismatches of both
collections; when none exist it does nothing and returns `None`;
otherwise it builds the report (reading both stats dicts), writes it to
the timestamp-named file, prints the first 5 entries of each mismatch
category with an "... and N more" count when a category exceeds 5, and
returns the report file name. The timestamp is passed in as a value. -/
def save_results (rsp rsf : List TaskResult) (ssp ssf : Option SetStats) (ts : String) :
    Except String SaveOutput := do
  let failed_tests := collectFailed rsf "fail" "pass" (collectFailed rsp "pass" "fail" [])
  if failed_tests.isEmpty then
    return { report_written := none, ret := none
             preview_pass := [], preview_pass_more := none
             preview_fail := [], preview_fail_more := none }
  let spTotal ← statGet ssp (·.total)
  let spPassed ← statGet ssp (·.passed)
  let spFailed ← statGet ssp (·.failed)
  let sfTotal ← statGet ssf (·.total)
  let sfPassed ← statGet ssf (·.passed)
  let sfFailed ← statGet ssf (·.failed)
  let report_file := "tree-sitter-test-report-" ++ ts ++ ".json"
  let report : Report :=
    { timestamp := ts
      should_pass := { total := spTotal, passed := spPassed, failed := spFailed }
      should_fail := { total := sfTotal, passed := sfPassed, failed := sfFailed }
      failed_tests := failed_tests }
  let should_pass_fails := failed_tests.filter (fun t => t.expected == "pass")
  let should_fail_fails := failed_tests.filter (fun t => t.expected == "fail")
  return { report_written := some (report_file, report)
           ret := some report_file
           preview_pass := (should_pass_fails.take 5).map (·.file)
           preview_pass_more :=
             if should_pass_fails.length > 5 then some (should_pass_fails.length - 5) else none
           preview_fail := (should_fail_fails.take 5).map (·.file)
           preview_fail_more :=
             if should_fail_fails.length > 5 then some (should_fail_fails.length - 5) else none }

/-- The mismatch records `save_results` collects for one result
collection, in closed form: one record per `success == false` result. -/
def mismatchRecords (results : List TaskResult) (e a : String) : List FailedTestRecord :=
  (results.filter (fun r => !r.success)).map
    (fun r => { file := r.file_path, expected := e, actual := a })

/-! ## Characterisations of the loops -/

/-- The inner filename loop of `find_files` appends exactly the joined
paths of the filenames matching one of the extensions. -/
theorem find_files_inner (es : List String) (root : String) (fns : List String)
    (acc : List String) :
    fns.foldl (fun files filename =>
        if es.any (fun ext => endswith filename ext) then files ++ [pathJoin root filename]
        else files) acc
      = acc ++ (fns.filter (fun fn => es.any (fun ext => endswith fn ext))).map (pathJoin root) := by
  induction fns generalizing acc with
  | nil => simp
  | cons fn fns ih =>
    rw [List.foldl_cons, List.filter_cons]
    by_cases h : es.any (fun ext => endswith fn ext)
    · rw [if_pos h, if_pos h, ih]; simp
    · rw [if_neg h, if_neg h, ih]

/-- The outer directory loop of `find_files` produces the concatenation,
over the walk entries, of each entry's matching joined paths. -/
theorem find_files_foldl (w : DirWalk) (es : List String) (acc : List String) :
    w.foldl (fun files rf =>
        rf.2.foldl (fun files filename =>
          if es.any (fun ext => endswith filename ext) then files ++ [pathJoin rf.1 filename]
          else files) files) acc
      = acc ++ w.flatMap (fun rf =>
          (rf.2.filter (fun fn => es.any (fun ext => endswith fn ext))).map (pathJoin rf.1)) := by
  induction w generalizing acc with
  | nil => simp
  | cons rf w ih =>
    rw [List.foldl_cons, find_files_inner, ih, List.flatMap_cons, List.append_assoc]

/-- `find_files` on an existing directory, as a `flatMap` of per-entry
filter-and-join. -/
theorem find_files_some (w : DirWalk) (exts : Option (List String)) :
    find_files (some w) exts
      = w.flatMap (fun rf =>
          (rf.2.filter (fun fn =>
            (exts.getD defaultExtensions).any (fun ext => endswith fn ext))).map
            (pathJoin rf.1)) := by
  simpa [find_files] using find_files_foldl w (exts.getD defaultExtensions) []

/-- The stats fold of `process_directory`, characterised: `passed` counts
the matching results, `failed` counts the mismatching ones, and
`failed_files` appends the mismatching paths in result order. -/
theorem foldl_foldStats (results : List TaskResult) (s : SetStats) :
    results.foldl foldStats s =
      { total := s.total
        passed := s.passed + (results.filter (fun r => r.success)).length
        failed := s.failed + (results.filter (fun r => !r.success)).length
        failed_files :=
          s.failed_files ++ (results.filter (fun r => !r.success)).map (·.file_path) } := by
  induction results generalizing s with
  | nil => simp
  | cons r rs ih =>
    by_cases h : r.success <;>
      simp [foldStats, h, ih, List.filter_cons] <;>
      omega

/-- The Aggregator's output in closed form. -/
theorem aggregate_eq (results : List TaskResult) :
    aggregate results =
      { total := results.length
        passed := (results.filter (fun r => r.success)).length
        failed := (results.filter (fun r => !r.success)).length
        failed_files := (results.filter (fun r => !r.success)).map (·.file_path) } := by
  simp [aggregate, foldl_foldStats]

/-- Unfolding one step of the mismatch-collection loop. -/
theorem collectFailed_cons (r : TaskResult) (rs : List TaskResult) (e a : String)
    (acc : List FailedTestRecord) :
    collectFailed (r :: rs) e a acc =
      collectFailed rs e a
        (if !r.success then acc ++ [{ file := r.file_path, expected := e, actual := a }]
         else acc) := rfl

/-- The mismatch-collection loop of `save_results`, characterised. -/
theorem collectFailed_eq (results : List TaskResult) (e a : String)
    (acc : List FailedTestRecord) :
    collectFailed results e a acc =
      acc ++ (results.filter (fun r => !r.success)).map
        (fun r => { file := r.file_path, expected := e, actual := a }) := by
  induction results generalizing acc with
  | nil => simp [collectFailed]
  | cons r rs ih =>
    rw [collectFailed_cons, List.filter_cons]
    by_cases h : r.success
    · rw [if_neg (by simp [h]), if_neg (by simp [h]), ih]
    · rw [if_pos (by simp [h]), if_pos (by simp [h]), ih]; simp

/-- The task fold of `process_directory`, when no task's oracle
invocation fails to spawn: it completes, appending one result per task
and accumulating the statistics over exactly those results. -/
theorem foldlM_tasks_ok (oracle : Oracle) (tasks : List (String × Bool))
    (h : ∀ t ∈ tasks, oracle t.1 ≠ .spawnFailure) (rs0 : List TaskResult) (s0 : SetStats) :
    ∃ rs1, tasks.foldlM (processStep oracle) (rs0, s0) =
        Except.ok (rs0 ++ rs1, rs1.foldl foldStats s0) ∧
      rs1.length = tasks.length := by
  induction tasks generalizing rs0 s0 with
  | nil => exact ⟨[], by simp; rfl, rfl⟩
  | cons t ts ih =>
    obtain ⟨code, hcode⟩ : ∃ c, oracle t.1 = .exited c := by
      cases hoc : oracle t.1 with
      | exited c => exact ⟨c, rfl⟩
      | spawnFailure => exact absurd hoc (h t (List.mem_cons_self t ts))
    set r : TaskResult :=
      { file_path := t.1, expected_success := t.2,
        actual_success := (code == 0), success := (t.2 == (code == 0)) } with hr
    have htf : test_file oracle t = .ok r := by simp [test_file, hcode, hr]
    obtain ⟨rs1, hfold, hlen⟩ :=
      ih (fun u hu => h u (List.mem_cons_of_mem t hu)) (rs0 ++ [r]) (foldStats s0 r)
    refine ⟨r :: rs1, ?_, by simp [hlen]⟩
    rw [List.foldlM_cons]
    have hstep : processStep oracle (rs0, s0) t = .ok (rs0 ++ [r], foldStats s0 r) := by
      simp [processStep, htf]
    rw [hstep]
    simpa [List.append_assoc] using hfold

/-! ## Claims -/

/-- C5: for every file path and expected-verdict pair on which the oracle
process spawns and exits, `test_file` returns a `TaskResult` carrying the
path and expected verdict unchanged, whose `actual_success` equals
(exit status == 0) and whose `success` equals
(expected_success == actual_success). -/
theorem test_file_spec (oracle : Oracle) (fp : String) (exp : Bool) (code : Int)
    (h : oracle fp = .exited code) :
    test_file oracle (fp, exp) =
      .ok { file_path := fp, expected_success := exp,
            actual_success := (code == 0), success := (exp == (code == 0)) } := by
  simp [test_file, h]

/-- Witness for C5: a concrete oracle exiting 0 on a concrete file. -/
theorem test_file_spec_witness :
    test_file (fun _ => .exited 0) ("d/a.ts", true) =
      .ok { file_path := "d/a.ts", expected_success := true,
            actual_success := true, success := true } := by
  exact test_file_spec (fun _ => .exited 0) "d/a.ts" true 0 rfl

/-- C4: for every non-empty `TaskResult` collection folded by the
Aggregator, the derived `SetStats` satisfies
`total = passed + failed` and `failed = failed_files.length`. -/
theorem aggregate_invariant (results : List TaskResult) (_h : results ≠ []) :
    (aggregate results).total = (aggregate results).passed + (aggregate results).failed ∧
    (aggregate results).failed = (aggregate results).failed_files.length := by
  simp only [aggregate_eq]
  exact ⟨List.length_eq_length_filter_add (fun r => r.success), by simp⟩

/-- Witness for C4: a two-result collection, one match and one mismatch. -/
theorem aggregate_invariant_witness :
    (aggregate [{ file_path := "d/a.ts", expected_success := true,
                  actual_success := true, success := true },
                { file_path := "d/b.ts", expected_success := true,
                  actual_success := false, success := false }]).total =
      (aggregate [{ file_path := "d/a.ts", expected_success := true,
                    actual_success := true, success := true },
                  { file_path := "d/b.ts", expected_success := true,
                    actual_success := false, success := false }]).passed +
      (aggregate [{ file_path := "d/a.ts", expected_success := true,
                    actual_success := true, success := true },
                  { file_path := "d/b.ts", expected_success := true,
                    actual_success := false, success := false }]).failed ∧
    (aggregate [{ file_path := "d/a.ts", expected_success := true,
                  actual_success := true, success := true },
                { file_path := "d/b.ts", expected_success := true,
                  actual_success := false, success := false }]).failed =
      (aggregate [{ file_path := "d/a.ts", expected_success := true,
                    actual_success := true, success := true },
                  { file_path := "d/b.ts", expected_success := true,
                    actual_success := false, success := false }]).failed_files.length := by
  exact aggregate_invariant _ (by decide)

/-- C3 counterexample: two mismatching results swapped are a permutation
of each other, yet the folded `SetStats` differ (the `failed_files`
listings come out in opposite orders), so the permuted fold is not
identical to the original fold. -/
theorem aggregate_perm_counterexample :
    ([{ file_path := "d/a.ts", expected_success := true,
        actual_success := false, success := false },
      { file_path := "d/b.ts", expected_success := true,
        actual_success := false, success := false }] : List TaskResult).Perm
      [{ file_path := "d/b.ts", expected_success := true,
         actual_success := false, success := false },
       { file_path := "d/a.ts", expected_success := true,
         actual_success := false, success := false }] ∧
    aggregate [{ file_path := "d/a.ts", expected_success := true,
                 actual_success := false, success := false },
               { file_path := "d/b.ts", expected_success := true,
                 actual_success := false, success := false }] ≠
    aggregate [{ file_path := "d/b.ts", expected_success := true,
                 actual_success := false, success := false },
               { file_path := "d/a.ts", expected_success := true,
                 actual_success := false, success := false }] := by
  exact ⟨List.Perm.swap _ _ _, by decide⟩

/-- C3 (amended): folding a permuted `TaskResult` collection yields the
same `total`, `passed` and `failed`, and a `failed_files` listing that is
a permutation of the original one (not necessarily the identical list). -/
theorem aggregate_perm (l1 l2 : List TaskResult) (h : l1.Perm l2) :
    (aggregate l2).total = (aggregate l1).total ∧
    (aggregate l2).passed = (aggregate l1).passed ∧
    (aggregate l2).failed = (aggregate l1).failed ∧
    (aggregate l2).failed_files.Perm (aggregate l1).failed_files := by
  simp only [aggregate_eq]
  exact ⟨h.length_eq.symm, (h.filter _).length_eq.symm,
    (h.filter _).length_eq.symm, ((h.filter _).map _).symm⟩

/-- Witness for C3's amended theorem: the swapped pair from the
counterexample yields equal counters and permuted failed listings. -/
theorem aggregate_perm_witness :
    (aggregate [{ file_path := "d/b.ts", expected_success := true,
                  actual_success := false, success := false },
                { file_path := "d/a.ts", expected_success := true,
                  actual_success := false, success := false }]).total =
      (aggregate [{ file_path := "d/a.ts", expected_success := true,
                    actual_success := false, success := false },
                  { file_path := "d/b.ts", expected_success := true,
                    actual_success := false, success := false }]).total ∧
    (aggregate [{ file_path := "d/b.ts", expected_success := true,
                  actual_success := false, success := false },
                { file_path := "d/a.ts", expected_success := true,
                  actual_success := false, success := false }]).passed =
      (aggregate [{ file_path := "d/a.ts", expected_success := true,
                    actual_success := false, success := false },
                  { file_path := "d/b.ts", expected_success := true,
                    actual_success := false, success := false }]).passed ∧
    (aggregate [{ file_path := "d/b.ts", expected_success := true,
                  actual_success := false, success := false },
                { file_path := "d/a.ts", expected_success := true,
                  actual_success := false, success := false }]).failed =
      (aggregate [{ file_path := "d/a.ts", expected_success := true,
                    actual_success := false, success := false },
                  { file_path := "d/b.ts", expected_success := true,
                    actual_success := false, success := false }]).failed ∧
    (aggregate [{ file_path := "d/b.ts", expected_success := true,
                  actual_success := false, success := false },
                { file_path := "d/a.ts", expected_success := true,
                  actual_success := false, success := false }]).failed_files.Perm
      (aggregate [{ file_path := "d/a.ts", expected_success := true,
                    actual_success := false, success := false },
                  { file_path := "d/b.ts", expected_success := true,
                    actual_success := false, success := false }]).failed_files := by
  exact aggregate_perm _ _ (List.Perm.swap _ _ _)

/-- C1: at the failing input — both labeled directories yield no files
(one missing, one matching nothing) — `process_directory` returns the
empty stats dict, and `print_stats` then raises `KeyError` on its first
key lookup instead of reporting a 0% rate: the run crashes rather than
completing cleanly. -/
theorem empty_run_raises_keyerror :
    process_directory (fun _ => .exited 0) none true none = .ok ([], none) ∧
    process_directory (fun _ => .exited 0) (some [("empty", [])]) false none =
      .ok ([], none) ∧
    print_stats none none = .error "KeyError" := by
  exact ⟨rfl, rfl, rfl⟩

/-- The `failed_tests` list `save_results` builds: the should-parse
mismatches (expected "pass", actual "fail") followed by the
should-not-parse mismatches (expected "fail", actual "pass"). -/
theorem save_results_failed_tests (rsp rsf : List TaskResult) :
    collectFailed rsf "fail" "pass" (collectFailed rsp "pass" "fail" []) =
      mismatchRecords rsp "pass" "fail" ++ mismatchRecords rsf "fail" "pass" := by
  rw [collectFailed_eq, collectFailed_eq]
  simp [mismatchRecords]

/-- Filtering the built `failed_tests` for expected "pass" recovers
exactly the should-parse mismatch records. -/
theorem filter_pass_records (rsp rsf : List TaskResult) :
    (mismatchRecords rsp "pass" "fail" ++ mismatchRecords rsf "fail" "pass").filter
        (fun t => t.expected == "pass") =
      mismatchRecords rsp "pass" "fail" := by
  rw [List.filter_append]
  have h1 : (mismatchRecords rsp "pass" "fail").filter (fun t => t.expected == "pass") =
      mismatchRecords rsp "pass" "fail" := by
    apply List.filter_eq_self.mpr
    intro t ht
    obtain ⟨r, _, rfl⟩ := List.mem_map.mp ht
    rfl
  have h2 : (mismatchRecords rsf "fail" "pass").filter (fun t => t.expected == "pass") = [] := by
    apply List.filter_eq_nil_iff.mpr
    intro t ht
    obtain ⟨r, _, rfl⟩ := List.mem_map.mp ht
    show ¬(("fail" : String) == "pass") = true
    decide
  rw [h1, h2, List.append_nil]

/-- Filtering the built `failed_tests` for expected "fail" recovers
exactly the should-not-parse mismatch records. -/
theorem filter_fail_records (rsp rsf : List TaskResult) :
    (mismatchRecords rsp "pass" "fail" ++ mismatchRecords rsf "fail" "pass").filter
        (fun t => t.expected == "fail") =
      mismatchRecords rsf "fail" "pass" := by
  rw [List.filter_append]
  have h1 : (mismatchRecords rsp "pass" "fail").filter (fun t => t.expected == "fail") = [] := by
    apply List.filter_eq_nil_iff.mpr
    intro t ht
    obtain ⟨r, _, rfl⟩ := List.mem_map.mp ht
    show ¬(("pass" : String) == "fail") = true
    decide
  have h2 : (mismatchRecords rsf "fail" "pass").filter (fun t => t.expected == "fail") =
      mismatchRecords rsf "fail" "pass" := by
    apply List.filter_eq_self.mpr
    intro t ht
    obtain ⟨r, _, rfl⟩ := List.mem_map.mp ht
    rfl
  rw [h1, h2, List.nil_append]

/-- `save_results` when neither collection holds a mismatch: no file is
written, nothing is previewed and `None` is returned. -/
theorem save_results_empty (rsp rsf : List TaskResult) (ssp ssf : Option SetStats) (ts : String)
    (h1 : rsp.filter (fun r => !r.success) = [])
    (h2 : rsf.filter (fun r => !r.success) = []) :
    save_results rsp rsf ssp ssf ts =
      .ok { report_written := none, ret := none
            preview_pass := [], preview_pass_more := none
            preview_fail := [], preview_fail_more := none } := by
  have hF : collectFailed rsf "fail" "pass" (collectFailed rsp "pass" "fail" []) = [] := by
    rw [save_results_failed_tests]
    simp [mismatchRecords, h1, h2]
  simp only [save_results]
  rw [hF]
  rfl

/-- `save_results` when a mismatch exists (and both stats dicts are
populated): the timestamp-named report is written and returned, holding
both per-set summaries and the collected mismatch records, with the two
capped previews. -/
theorem save_results_with_mismatch (rsp rsf : List TaskResult) (s1 s2 : SetStats) (ts : String)
    (h : (rsp ++ rsf).filter (fun r => !r.success) ≠ []) :
    save_results rsp rsf (some s1) (some s2) ts =
      .ok { report_written := some ("tree-sitter-test-report-" ++ ts ++ ".json",
              { timestamp := ts
                should_pass := { total := s1.total, passed := s1.passed, failed := s1.failed }
                should_fail := { total := s2.total, passed := s2.passed, failed := s2.failed }
                failed_tests :=
                  mismatchRecords rsp "pass" "fail" ++ mismatchRecords rsf "fail" "pass" })
            ret := some ("tree-sitter-test-report-" ++ ts ++ ".json")
            preview_pass := ((mismatchRecords rsp "pass" "fail").take 5).map (·.file)
            preview_pass_more :=
              if (mismatchRecords rsp "pass" "fail").length > 5 then
                some ((mismatchRecords rsp "pass" "fail").length - 5)
              else none
            preview_fail := ((mismatchRecords rsf "fail" "pass").take 5).map (·.file)
            preview_fail_more :=
              if (mismatchRecords rsf "fail" "pass").length > 5 then
                some ((mismatchRecords rsf "fail" "pass").length - 5)
              else none } := by
  have hne : mismatchRecords rsp "pass" "fail" ++ mismatchRecords rsf "fail" "pass" ≠ [] := by
    intro hAB
    rcases List.append_eq_nil.mp hAB with ⟨hA, hB⟩
    apply h
    rw [List.filter_append]
    simp only [mismatchRecords] at hA hB
    rw [List.map_eq_nil_iff.mp hA, List.map_eq_nil_iff.mp hB]
    rfl
  have hF : collectFailed rsf "fail" "pass" (collectFailed rsp "pass" "fail" []) =
      mismatchRecords rsp "pass" "fail" ++ mismatchRecords rsf "fail" "pass" :=
    save_results_failed_tests rsp rsf
  simp only [save_results]
  rw [hF, if_neg (by simp [List.isEmpty_iff, hne]), filter_pass_records, filter_fail_records]
  rfl

/-- C2 counterexample: a walk with two matching files whose oracle fails
to spawn on the first. The spawn failure does not collapse to a
`TaskResult` with `actual_success = false`: the raised exception aborts
the whole batch, so no task — not even the second, spawnable one —
yields a result. -/
theorem spawn_failure_aborts_batch :
    process_directory
        (fun fp => if fp = "d/a.ts" then OracleOutcome.spawnFailure else .exited 0)
        (some [("d", ["a.ts", "b.ts"])]) true none = .error () := by
  rfl

/-- C2 (amended): an oracle run that exits with a non-zero status
(including death by an unexpected signal, Python's negative
`returncode`) collapses to `actual_success = false` in that task's
`TaskResult` and, when no task's spawn fails, the batch completes with
one result per file; but a process spawn failure raises and aborts the
whole batch (see the counterexample). -/
theorem oracle_error_policy (oracle : Oracle) (fp : String) (exp : Bool) (code : Int)
    (w : DirWalk) (exts : Option (List String)) (expected : Bool)
    (hc : oracle fp = .exited code) (hnz : code ≠ 0)
    (hspawn : ∀ f ∈ find_files (some w) exts, oracle f ≠ .spawnFailure) :
    test_file oracle (fp, exp) =
      .ok { file_path := fp, expected_success := exp,
            actual_success := false, success := (exp == false) } ∧
    ∃ rs s, process_directory oracle (some w) expected exts = .ok (rs, s) ∧
      rs.length = (find_files (some w) exts).length := by
  constructor
  · have hb : (code == 0) = false := by simpa using hnz
    simp [test_file, hc, hb]
  · by_cases hfe : (find_files (some w) exts).isEmpty
    · refine ⟨[], none, ?_, ?_⟩
      · simp only [process_directory]
        rw [if_pos hfe]
        rfl
      · have hnil : find_files (some w) exts = [] := List.isEmpty_iff.mp hfe
        simp [hnil]
    · obtain ⟨rs1, hfold, hlen⟩ := foldlM_tasks_ok oracle
        ((find_files (some w) exts).map (fun fp => (fp, expected)))
        (by intro t ht
            obtain ⟨f, hf, rfl⟩ := List.mem_map.mp ht
            exact hspawn f hf)
        []
        { total := (find_files (some w) exts).length, passed := 0, failed := 0,
          failed_files := [] }
      refine ⟨rs1,
        some (rs1.foldl foldStats
          { total := (find_files (some w) exts).length, passed := 0, failed := 0,
            failed_files := [] }), ?_, by simpa using hlen⟩
      simp only [process_directory]
      rw [if_neg hfe, hfold]
      rfl

/-- Witness for C2's amended theorem: an oracle dying of signal 11 on a
one-file corpus. -/
theorem oracle_error_policy_witness :
    test_file (fun _ => .exited (-11)) ("d/a.ts", true) =
      .ok { file_path := "d/a.ts", expected_success := true,
            actual_success := false, success := (true == false) } ∧
    ∃ rs s, process_directory (fun _ => .exited (-11)) (some [("d", ["a.ts"])]) true none =
        .ok (rs, s) ∧
      rs.length = (find_files (some [("d", ["a.ts"])]) none).length := by
  exact oracle_error_policy (fun _ => .exited (-11)) "d/a.ts" true (-11)
    [("d", ["a.ts"])] none true rfl (by decide) (by decide)

/-- C6: the Report Writer persists a report file and returns its name if
and only if the union of mismatched results (`success == false`) across
both collections is non-empty; when no mismatch exists it performs no
file I/O and returns `None`. -/
theorem save_results_report_iff (rsp rsf : List TaskResult) (s1 s2 : SetStats) (ts : String) :
    ∃ out, save_results rsp rsf (some s1) (some s2) ts = .ok out ∧
      (out.report_written.isSome ↔ (rsp ++ rsf).filter (fun r => !r.success) ≠ []) ∧
      (out.ret.isSome ↔ out.report_written.isSome) ∧
      ((rsp ++ rsf).filter (fun r => !r.success) = [] →
        out.report_written = none ∧ out.ret = none) := by
  by_cases h : (rsp ++ rsf).filter (fun r => !r.success) = []
  · rw [List.filter_append] at h
    rcases List.append_eq_nil.mp h with ⟨h1, h2⟩
    refine ⟨_, save_results_empty rsp rsf (some s1) (some s2) ts h1 h2, ?_, ?_, ?_⟩
    · simp [List.filter_append, h1, h2]
    · simp
    · exact fun _ => ⟨rfl, rfl⟩
  · refine ⟨_, save_results_with_mismatch rsp rsf s1 s2 ts h, ?_, ?_, ?_⟩
    · exact ⟨fun _ => h, fun _ => rfl⟩
    · simp
    · exact fun hc => absurd hc h

/-- C7: the Report Writer's console preview of each mismatch category
("expected pass, got fail" from the should-parse collection and
"expected fail, got pass" from the should-not-parse collection) prints
at most the first 5 entries, and whenever a category holds more than 5
entries it prints the exact count of the remaining entries, and no such
line otherwise. -/
theorem save_results_preview_cap (rsp rsf : List TaskResult) (s1 s2 : SetStats) (ts : String) :
    ∃ out, save_results rsp rsf (some s1) (some s2) ts = .ok out ∧
      out.preview_pass.length ≤ 5 ∧ out.preview_fail.length ≤ 5 ∧
      out.preview_pass = ((rsp.filter (fun r => !r.success)).map (·.file_path)).take 5 ∧
      out.preview_fail = ((rsf.filter (fun r => !r.success)).map (·.file_path)).take 5 ∧
      ((rsp.filter (fun r => !r.success)).length > 5 →
        out.preview_pass_more = some ((rsp.filter (fun r => !r.success)).length - 5)) ∧
      ((rsp.filter (fun r => !r.success)).length ≤ 5 → out.preview_pass_more = none) ∧
      ((rsf.filter (fun r => !r.success)).length > 5 →
        out.preview_fail_more = some ((rsf.filter (fun r => !r.success)).length - 5)) ∧
      ((rsf.filter (fun r => !r.success)).length ≤ 5 → out.preview_fail_more = none) := by
  by_cases h : (rsp ++ rsf).filter (fun r => !r.success) = []
  · rw [List.filter_append] at h
    rcases List.append_eq_nil.mp h with ⟨h1, h2⟩
    refine ⟨_, save_results_empty rsp rsf (some s1) (some s2) ts h1 h2, ?_⟩
    simp [h1, h2]
  · refine ⟨_, save_results_with_mismatch rsp rsf s1 s2 ts h, ?_⟩
    have lenA : (mismatchRecords rsp "pass" "fail").length =
        (rsp.filter (fun r => !r.success)).length := by
      simp [mismatchRecords]
    have lenB : (mismatchRecords rsf "fail" "pass").length =
        (rsf.filter (fun r => !r.success)).length := by
      simp [mismatchRecords]
    refine ⟨?_, ?_, ?_, ?_, ?_, ?_, ?_, ?_⟩
    · simp [Nat.min_le_left]
    · simp [Nat.min_le_left]
    · show ((mismatchRecords rsp "pass" "fail").take 5).map (·.file) = _
      rw [mismatchRecords, ← List.map_take, List.map_map, ← List.map_take]
      rfl
    · show ((mismatchRecords rsf "fail" "pass").take 5).map (·.file) = _
      rw [mismatchRecords, ← List.map_take, List.map_map, ← List.map_take]
      rfl
    · intro hgt
      show (if (mismatchRecords rsp "pass" "fail").length > 5 then _ else _) = _
      rw [if_pos (by rw [lenA]; exact hgt), lenA]
    · intro hle
      show (if (mismatchRecords rsp "pass" "fail").length > 5 then _ else _) = _
      rw [if_neg (by rw [lenA]; omega)]
    · intro hgt
      show (if (mismatchRecords rsf "fail" "pass").length > 5 then _ else _) = _
      rw [if_pos (by rw [lenB]; exact hgt), lenB]
    · intro hle
      show (if (mismatchRecords rsf "fail" "pass").length > 5 then _ else _) = _
      rw [if_neg (by rw [lenB]; omega)]

/-- C8: the report built by the Report Writer from both result
collections and the `SetStats` the Aggregator derives from them holds
exactly one `FailedTestRecord` per `success == false` result, so its
`failed_tests` length equals the mismatch count and equals
`should_pass_stats.failed + should_fail_stats.failed`. -/
theorem report_failed_tests_count (rsp rsf : List TaskResult) (ts : String) :
    ∃ out, save_results rsp rsf (some (aggregate rsp)) (some (aggregate rsf)) ts = .ok out ∧
      ∀ fr rep, out.report_written = some (fr, rep) →
        rep.failed_tests.length = ((rsp ++ rsf).filter (fun r => !r.success)).length ∧
        rep.failed_tests.length = (aggregate rsp).failed + (aggregate rsf).failed := by
  by_cases h : (rsp ++ rsf).filter (fun r => !r.success) = []
  · rw [List.filter_append] at h
    rcases List.append_eq_nil.mp h with ⟨h1, h2⟩
    refine ⟨_, save_results_empty rsp rsf _ _ ts h1 h2, ?_⟩
    intro fr rep hrep
    exact absurd hrep (by simp)
  · refine ⟨_, save_results_with_mismatch rsp rsf (aggregate rsp) (aggregate rsf) ts h, ?_⟩
    intro fr rep hrep
    have hrep' : rep.failed_tests =
        mismatchRecords rsp "pass" "fail" ++ mismatchRecords rsf "fail" "pass" := by
      simp only [Option.some.injEq, Prod.mk.injEq] at hrep
      rw [← hrep.2]
    constructor
    · rw [hrep', List.filter_append]
      simp [mismatchRecords]
    · rw [hrep', aggregate_eq, aggregate_eq]
      simp [mismatchRecords]

/-- C9: in every report the Report Writer produces, each record's
`actual` is the exact opposite of its `expected` ("pass" with "fail" and
vice versa), and all records derived from the should-parse collection
precede all records derived from the should-not-parse collection in
`failed_tests`. -/
theorem report_records_polarity (rsp rsf : List TaskResult) (s1 s2 : SetStats) (ts : String) :
    ∃ out, save_results rsp rsf (some s1) (some s2) ts = .ok out ∧
      ∀ fr rep, out.report_written = some (fr, rep) →
        (∀ t ∈ rep.failed_tests,
          (t.expected = "pass" ∧ t.actual = "fail") ∨
          (t.expected = "fail" ∧ t.actual = "pass")) ∧
        rep.failed_tests =
          (rsp.filter (fun r => !r.success)).map
            (fun r => { file := r.file_path, expected := "pass", actual := "fail" }) ++
          (rsf.filter (fun r => !r.success)).map
            (fun r => { file := r.file_path, expected := "fail", actual := "pass" }) := by
  by_cases h : (rsp ++ rsf).filter (fun r => !r.success) = []
  · rw [List.filter_append] at h
    rcases List.append_eq_nil.mp h with ⟨h1, h2⟩
    refine ⟨_, save_results_empty rsp rsf (some s1) (some s2) ts h1 h2, ?_⟩
    intro fr rep hrep
    exact absurd hrep (by simp)
  · refine ⟨_, save_results_with_mismatch rsp rsf s1 s2 ts h, ?_⟩
    intro fr rep hrep
    have hrep' : rep.failed_tests =
        mismatchRecords rsp "pass" "fail" ++ mismatchRecords rsf "fail" "pass" := by
      simp only [Option.some.injEq, Prod.mk.injEq] at hrep
      rw [← hrep.2]
    constructor
    · intro t ht
      rw [hrep'] at ht
      rcases List.mem_append.mp ht with hA | hB
      · obtain ⟨r, _, rfl⟩ := List.mem_map.mp hA
        exact Or.inl ⟨rfl, rfl⟩
      · obtain ⟨r, _, rfl⟩ := List.mem_map.mp hB
        exact Or.inr ⟨rfl, rfl⟩
    · rw [hrep']
      rfl

/-- Splitting two equal lists at an occurrence of an element that is in
neither prefix gives equal prefixes and equal suffixes. -/
theorem eq_of_append_cons_eq {α : Type} {c : α} (x : List α) :
    ∀ (x' y y' : List α), c ∉ x → c ∉ x' → x ++ c :: y = x' ++ c :: y' →
      x = x' ∧ y = y' := by
  induction x with
  | nil =>
    intro x' y y' _ hx' h
    cases x' with
    | nil => simpa using h
    | cons a' t' =>
      simp only [List.nil_append, List.cons_append, List.cons.injEq] at h
      obtain ⟨h1, -⟩ := h
      subst h1
      exact absurd (List.mem_cons_self _ _) hx'
  | cons a t ih =>
    intro x' y y' hx hx' h
    cases x' with
    | nil =>
      simp only [List.cons_append, List.nil_append, List.cons.injEq] at h
      obtain ⟨h1, -⟩ := h
      subst h1
      exact absurd (List.mem_cons_self _ _) hx
    | cons a' t' =>
      simp only [List.cons_append, List.cons.injEq] at h
      obtain ⟨rfl, h2⟩ := h
      obtain ⟨h3, h4⟩ := ih t' y y' (fun hm => hx (List.mem_cons_of_mem a hm))
        (fun hm => hx' (List.mem_cons_of_mem a hm)) h2
      exact ⟨by rw [h3], h4⟩

/-- `pathJoin` is injective on (root, separator-free basename) pairs:
the basename is whatever follows the last separator. -/
theorem pathJoin_inj (r r' fn fn' : String) (h : '/' ∉ fn.data) (h' : '/' ∉ fn'.data)
    (he : pathJoin r fn = pathJoin r' fn') : r = r' ∧ fn = fn' := by
  have hd : r.data ++ '/' :: fn.data = r'.data ++ '/' :: fn'.data := by
    have hdata := congrArg String.data he
    have hsep : ("/" : String).data = ['/'] := rfl
    simpa [pathJoin, String.data_append, hsep] using hdata
  have hrev : fn.data.reverse ++ '/' :: r.data.reverse =
      fn'.data.reverse ++ '/' :: r'.data.reverse := by
    have := congrArg List.reverse hd
    simpa [List.reverse_append] using this
  obtain ⟨h1, h2⟩ := eq_of_append_cons_eq fn.data.reverse fn'.data.reverse
    r.data.reverse r'.data.reverse (by simpa using h) (by simpa using h') hrev
  exact ⟨String.ext (List.reverse_inj.mp h2), String.ext (List.reverse_inj.mp h1)⟩

/-- For a fixed root, `pathJoin` is injective in the filename. -/
theorem pathJoin_left_inj (r : String) : Function.Injective (pathJoin r) := by
  intro a b hab
  have hd := congrArg String.data hab
  rw [pathJoin, pathJoin, String.data_append, String.data_append] at hd
  exact String.ext (List.append_cancel_left hd)

/-- In its own walk entry, a matching filename's joined path occurs
exactly once among the entry's matching joined paths. -/
theorem count_entry_self (root : String) (fns : List String) (exts : List String)
    (fn0 : String) (hnd : fns.Nodup) (hfn0 : fn0 ∈ fns)
    (hm : exts.any (fun ext => endswith fn0 ext) = true) :
    ((fns.filter (fun fn => exts.any (fun ext => endswith fn ext))).map
        (pathJoin root)).count (pathJoin root fn0) = 1 := by
  rw [List.count_map_of_injective _ _ (pathJoin_left_inj root)]
  exact List.count_eq_one_of_mem (hnd.filter _) (List.mem_filter.mpr ⟨hfn0, hm⟩)

/-- A joined path never occurs among the matching joined paths of an
entry with a different root (filenames being separator-free). -/
theorem not_mem_entry_of_root_ne (root : String) (fns : List String) (exts : List String)
    (r0 fn0 : String) (hnofs : ∀ fn ∈ fns, '/' ∉ fn.data) (h0 : '/' ∉ fn0.data)
    (hroot : root ≠ r0) :
    pathJoin r0 fn0 ∉
      (fns.filter (fun fn => exts.any (fun e => endswith fn e))).map (pathJoin root) := by
  intro hmem
  obtain ⟨fn, hfn, heq⟩ := List.mem_map.mp hmem
  obtain ⟨hr, -⟩ := pathJoin_inj root r0 fn fn0
    (hnofs fn (List.mem_filter.mp hfn).1) h0 heq
  exact hroot hr

/-- Over a well-formed walk, a matching filename's joined path occurs
exactly once in the concatenation of all entries' matching joined
paths. -/
theorem count_flatMap_one (w : DirWalk) (exts : List String)
    (hnd : (w.map Prod.fst).Nodup)
    (hwf : ∀ rf ∈ w, rf.2.Nodup ∧ ∀ fn ∈ rf.2, '/' ∉ fn.data)
    (rf0 : String × List String) (hrf0 : rf0 ∈ w) (fn0 : String) (hfn0 : fn0 ∈ rf0.2)
    (hm : exts.any (fun ext => endswith fn0 ext) = true) (h0 : '/' ∉ fn0.data) :
    (w.flatMap (fun rf =>
        (rf.2.filter (fun fn => exts.any (fun ext => endswith fn ext))).map
          (pathJoin rf.1))).count (pathJoin rf0.1 fn0) = 1 := by
  induction w with
  | nil => cases hrf0
  | cons rf w ih =>
    rw [List.flatMap_cons, List.count_append]
    have hndtail : (w.map Prod.fst).Nodup := (List.nodup_cons.mp (by simpa using hnd)).2
    have hheadroot : rf.1 ∉ w.map Prod.fst := (List.nodup_cons.mp (by simpa using hnd)).1
    rcases List.mem_cons.mp hrf0 with rfl | hmem
    · have hone := count_entry_self rf0.1 rf0.2 exts fn0
        (hwf rf0 (List.mem_cons_self _ _)).1 hfn0 hm
      have hzero : (w.flatMap (fun rf =>
          (rf.2.filter (fun fn => exts.any (fun ext => endswith fn ext))).map
            (pathJoin rf.1))).count (pathJoin rf0.1 fn0) = 0 := by
        rw [List.count_eq_zero]
        intro hmem2
        obtain ⟨rf', hrf', hinlist⟩ := List.mem_flatMap.mp hmem2
        have hne : rf'.1 ≠ rf0.1 := by
          intro heq
          exact hheadroot (heq ▸ List.mem_map_of_mem Prod.fst hrf')
        exact not_mem_entry_of_root_ne rf'.1 rf'.2 exts rf0.1 fn0
          ((hwf rf' (List.mem_cons_of_mem _ hrf')).2) h0 hne hinlist
      rw [hone, hzero]
    · have hzero : ((rf.2.filter (fun fn => exts.any (fun ext => endswith fn ext))).map
          (pathJoin rf.1)).count (pathJoin rf0.1 fn0) = 0 := by
        rw [List.count_eq_zero]
        have hne : rf.1 ≠ rf0.1 := by
          intro heq
          exact hheadroot (heq ▸ List.mem_map_of_mem Prod.fst hmem)
        exact not_mem_entry_of_root_ne rf.1 rf.2 exts rf0.1 fn0
          ((hwf rf (List.mem_cons_self _ _)).2) h0 hne
      rw [hzero, ih hndtail
        (fun rf' hrf' => hwf rf' (List.mem_cons_of_mem _ hrf')) hmem]

/-- C10: over a well-formed directory walk, every path `find_files`
returns names a file of the tree whose filename ends with one of the
given extension suffixes, and every file of the tree whose filename ends
with one of the suffixes appears in the returned sequence exactly
once. -/
theorem find_files_spec (w : DirWalk) (exts : List String) (hwf : WalkWellFormed w) :
    (∀ p ∈ find_files (some w) (some exts),
      ∃ rf ∈ w, ∃ fn ∈ rf.2, p = pathJoin rf.1 fn ∧ ∃ e ∈ exts, endswith fn e = true) ∧
    (∀ rf ∈ w, ∀ fn ∈ rf.2, (∃ e ∈ exts, endswith fn e = true) →
      (find_files (some w) (some exts)).count (pathJoin rf.1 fn) = 1) := by
  obtain ⟨hnd, hprops⟩ := hwf
  constructor
  · intro p hp
    rw [find_files_some] at hp
    simp only [Option.getD_some] at hp
    obtain ⟨rf, hrf, hp2⟩ := List.mem_flatMap.mp hp
    obtain ⟨fn, hfn, rfl⟩ := List.mem_map.mp hp2
    obtain ⟨hfn1, hfn2⟩ := List.mem_filter.mp hfn
    exact ⟨rf, hrf, fn, hfn1, rfl, List.any_eq_true.mp hfn2⟩
  · intro rf hrf fn hfn hex
    rw [find_files_some]
    simp only [Option.getD_some]
    exact count_flatMap_one w exts hnd hprops rf hrf fn hfn
      (List.any_eq_true.mpr hex) ((hprops rf hrf).2 fn hfn)

/-- Witness for C10: a two-directory walk where `d/a.ts` matches `.ts`,
`d/b.md` does not, and a subdirectory holds another match. -/
theorem find_files_spec_witness :
    (find_files (some [("d", ["a.ts", "b.md"]), ("d/sub", ["c.ts"])])
        (some [".ts"])).count (pathJoin "d" "a.ts") = 1 := by
  exact (find_files_spec [("d", ["a.ts", "b.md"]), ("d/sub", ["c.ts"])] [".ts"]
      (by decide)).2
    ("d", ["a.ts", "b.md"]) (by decide) "a.ts" (by decide) ⟨".ts", by decide, by decide⟩

end Evaluator
